import Mathlib

/-!
Shallow embedding of the browser video-compressor wrapper
(`VideoCompressor` in `assets/js/video-compressor.js`).

Modelling conventions:
* JavaScript option objects become structures whose optional fields are
  `Option`-valued; an absent property is `none`.
* JavaScript truthiness on optional strings/numbers is made explicit
  (`truthyStr`, `truthyInt`): the empty string and `0` are falsy.
* Functions that can `throw` return `Except String α`, carrying the exact
  message thrown by the source.
* The stateful parts of the class (`init`, `compress`) are modelled as
  explicit state passing over `InstanceState`.  Results of the external
  asynchronous collaborators (engine `load`/`writeFile`/`exec`/`readFile`,
  the file fetcher, `Date.now`) are supplied by an `EngineOracle` record,
  so one run of `compress` is a pure function of the starting state, the
  arguments and the oracle.  In the JavaScript event loop the code between
  two `await`s runs atomically; every state mutation performed by `init`
  happens before its only `await`, so the state transform of `init` is
  exactly its synchronous prefix, which the interleaving arguments below
  rely on.
-/

/-- `CompressionMode.COPY` — the `'copy'` mode string. -/
def CompressionMode.COPY : String := "copy"

/-- `CompressionMode.COPY_MUTE` — the `'copy-mute'` mode string. -/
def CompressionMode.COPY_MUTE : String := "copy-mute"

/-- `CompressionMode.REENCODE` — the `'reencode'` mode string. -/
def CompressionMode.REENCODE : String := "reencode"

/-- JavaScript truthiness for an optional string property
(absent and the empty string are falsy). -/
def truthyStr : Option String → Bool
  | none => false
  | some s => s != ""

/-- JavaScript truthiness for an optional numeric property
(absent and `0` are falsy). -/
def truthyInt : Option Int → Bool
  | none => false
  | some n => n != 0

/-- `ScaleOptions`: `{ width?, height? }`. -/
structure ScaleOptions where
  width : Option Int
  height : Option Int
deriving Repr, DecidableEq

/-- `VideoOptions`: `{ codec?, crf?, bitrate?, preset?, scale? }`. -/
structure VideoOptions where
  codec : Option String
  crf : Option Int
  bitrate : Option String
  preset : Option String
  scale : Option ScaleOptions
deriving Repr, DecidableEq

/-- The `videoOptions = {}` default parameter of `#applyVideoOptions`. -/
def emptyVideoOptions : VideoOptions :=
  { codec := none, crf := none, bitrate := none, preset := none, scale := none }

/-- `AudioOptions`: `{ mute?, codec?, bitrate? }`; `mute` is kept as its
truthiness. -/
structure AudioOptions where
  mute : Bool
  codec : Option String
  bitrate : Option String
deriving Repr, DecidableEq

/-- The `audioOptions = {}` default parameter of `#applyAudioOptions`. -/
def emptyAudioOptions : AudioOptions :=
  { mute := false, codec := none, bitrate := none }

/-- `OutputOptions`: `{ container?, fileName?, mimeType? }`. -/
structure OutputOptions where
  container : Option String
  fileName : Option String
  mimeType : Option String
deriving Repr, DecidableEq

/-- `CompressionOptions`.  The per-job callbacks are modelled by their
presence (`hasOnLog`, `hasOnProgress`), which is all the wrapper's state
observes. -/
structure CompressionOptions where
  mode : Option String
  video : Option VideoOptions
  audio : Option AudioOptions
  output : Option OutputOptions
  hasOnLog : Bool
  hasOnProgress : Bool
deriving Repr, DecidableEq

/-- Constructor configuration; only the default-callback presence is
observable in the wrapper's state (corePath/log are forwarded verbatim to
the engine factory and never read again). -/
structure VideoCompressorConfig where
  hasOnLog : Bool
  hasOnProgress : Bool
deriving Repr, DecidableEq

/-- A browser `File` argument: whether it is a real `File` instance
(`file instanceof File`), its `name` and its `type`. -/
structure FileObj where
  isFile : Bool
  name : String
  mimeType : String
deriving Repr, DecidableEq

/-- The `Blob` returned on success: its byte content and MIME type. -/
structure BlobValue where
  data : List Nat
  type : String
deriving Repr, DecidableEq

/-- `#guessExtension(name, mime)`: the part of the file name after the last
dot, else the subtype of the MIME type, else `'mp4'`. -/
def guessExtension (name mime : String) : String :=
  if name.contains '.' then (name.splitOn ".").getLastD ""
  else
    let mimeParts := if mime != "" then mime.splitOn "/" else []
    match mimeParts[1]? with
    | some p => if p != "" then p else "mp4"
    | none => "mp4"

/-- The output settings after `{ container: 'mp4', mimeType: 'video/mp4',
...options.output }`. -/
structure ResolvedOutput where
  container : String
  mimeType : String
  fileName : Option String
deriving Repr, DecidableEq

/-- The object spread `{ container: 'mp4', mimeType: 'video/mp4',
...options.output }` in `compress`. -/
def resolveOutput (options : CompressionOptions) : ResolvedOutput :=
  match options.output with
  | none => { container := "mp4", mimeType := "video/mp4", fileName := none }
  | some out =>
    { container := out.container.getD "mp4",
      mimeType := out.mimeType.getD "video/mp4",
      fileName := out.fileName }

/-- The scale-filter arguments appended by `#applyVideoOptions` when
`scale && (scale.width || scale.height)`; an absent dimension becomes `-2`
via `??`. -/
def scaleFilterArgs : Option ScaleOptions → List String
  | none => []
  | some scale =>
    if truthyInt scale.width || truthyInt scale.height then
      ["-vf", "scale=" ++ toString (scale.width.getD (-2)) ++ ":"
        ++ toString (scale.height.getD (-2))]
    else []

/-- `#applyVideoOptions(args, videoOptions)`: the video arguments appended
for re-encode mode, or the mutual-exclusion error.  (The source pushes
`-c:v` before performing the crf/bitrate check; since the thrown error
discards the argument array, returning the error first is
output-equivalent.) -/
def applyVideoOptions (videoOptions : VideoOptions) : Except String (List String) :=
  if videoOptions.crf.isSome && videoOptions.bitrate.isSome then
    .error "Provide either crf or bitrate for video, not both."
  else
    .ok (["-c:v", videoOptions.codec.getD "libx264"]
      ++ (match videoOptions.crf with
          | some c => ["-crf", toString c]
          | none => [])
      ++ (match videoOptions.bitrate with
          | some b => ["-b:v", b]
          | none => [])
      ++ (if truthyStr videoOptions.preset then
            ["-preset", videoOptions.preset.getD ""]
          else [])
      ++ scaleFilterArgs videoOptions.scale)

/-- `#applyAudioOptions(args, audioOptions)`: the audio arguments appended
for re-encode mode. -/
def applyAudioOptions (audioOptions : AudioOptions) : List String :=
  if audioOptions.mute then ["-an"]
  else
    (if truthyStr audioOptions.codec then
       ["-c:a", audioOptions.codec.getD ""]
     else if truthyStr audioOptions.bitrate then
       ["-c:a", "aac"]
     else
       ["-c:a", "copy"])
    ++ (if truthyStr audioOptions.bitrate then
          ["-b:a", audioOptions.bitrate.getD ""]
        else [])

/-- `#buildArgs(inputName, outputName, options, output)`: the full engine
argument list, or the error thrown while building it.  `switch` on an
absent mode hits the `default` clause (`${options.mode}` prints
`undefined`). -/
def buildArgs (inputName outputName : String) (options : CompressionOptions) :
    Except String (List String) :=
  let switched : Except String (List String) :=
   match options.mode with
   | some m =>
     if m == CompressionMode.COPY then
       .ok (["-i", inputName]
         ++ ["-c:v", "copy", "-c:a", "copy", "-movflags", "+faststart"])
     else if m == CompressionMode.COPY_MUTE then
       .ok (["-i", inputName]
         ++ ["-c:v", "copy", "-an", "-movflags", "+faststart"])
     else if m == CompressionMode.REENCODE then
       match applyVideoOptions (options.video.getD emptyVideoOptions) with
       | .error e => .error e
       | .ok vArgs =>
         .ok (["-i", inputName] ++ vArgs
           ++ applyAudioOptions (options.audio.getD emptyAudioOptions)
           ++ ["-movflags", "+faststart"])
     else .error ("Unsupported compression mode: " ++ m)
   | none => .error "Unsupported compression mode: undefined"
  switched.map (fun a => a ++ ["-y", outputName])

/-- The mutable state of one `VideoCompressor` instance, together with
counters observing how often the engine factory and its `load()` were
invoked.  `hooksOnLog`/`hooksOnProgress` record whether
`activeJobHooks.onLog`/`.onProgress` are non-null; `files` is the set of
names present in the engine's virtual filesystem. -/
structure InstanceState where
  ffmpegCreated : Bool
  loadStarted : Bool
  isRunningJob : Bool
  hooksOnLog : Bool
  hooksOnProgress : Bool
  files : List String
  factoryCalls : Nat
  loadCalls : Nat
deriving Repr, DecidableEq

/-- The state of a freshly constructed instance. -/
def freshState : InstanceState :=
  { ffmpegCreated := false, loadStarted := false, isRunningJob := false,
    hooksOnLog := false, hooksOnProgress := false, files := [],
    factoryCalls := 0, loadCalls := 0 }

/-- Outcomes of the external asynchronous collaborators for one `compress`
run: engine `load`, the file fetcher, `writeFile`, `exec`, `readFile`,
which `unlink` calls fail during cleanup, and the two `Date.now()`
readings. -/
structure EngineOracle where
  loadResult : Except String Unit
  fetchResult : Except String (List Nat)
  writeResult : Except String Unit
  execResult : Except String Unit
  readResult : Except String (List Nat)
  unlinkFails : String → Bool
  nowIn : Nat
  nowOut : Nat

/-- The state transform of `init()`.  All of `init`'s mutations happen in
its synchronous prefix (before `await this.loadingPromise`), so this is
both the effect of a completed `init()` call and the instance state seen
by other code while an `init()` call is suspended on its `await`. -/
def initStateAfter (st : InstanceState) : InstanceState :=
  if st.ffmpegCreated then st
  else if st.loadStarted then st
  else
    { st with ffmpegCreated := true, loadStarted := true,
              factoryCalls := st.factoryCalls + 1,
              loadCalls := st.loadCalls + 1 }

/-- The settlement of `init()`: if `this.ffmpeg` is already set it returns
immediately (without awaiting the stored loading promise); otherwise it
awaits the single stored `load()` promise. -/
def initResult (st : InstanceState) (o : EngineOracle) : Except String Unit :=
  if st.ffmpegCreated then .ok ()
  else o.loadResult

/-- One full `init()` call: resulting state and settlement. -/
def initRun (st : InstanceState) (o : EngineOracle) :
    InstanceState × Except String Unit :=
  (initStateAfter st, initResult st o)

/-- The synchronous validation prefix of `compress` (lines 118–126): the
`File` check, the mode check and the busy check, in source order.  Returns
the thrown message, if any.  This prefix runs atomically before the first
`await` and performs no state mutation. -/
def compressChecks (st : InstanceState) (file : FileObj)
    (options : CompressionOptions) : Option String :=
  if file.isFile = false then some "Input must be a browser File object."
  else if truthyStr options.mode = false then some "Compression mode is required."
  else if st.isRunningJob = true then
    some "Another compression job is already running on this instance."
  else none

/-- The input virtual-file name `` `input-${Date.now()}.${inputExtension}` ``. -/
def inputNameOf (file : FileObj) (o : EngineOracle) : String :=
  "input-" ++ toString o.nowIn ++ "." ++ guessExtension file.name file.mimeType

/-- The output virtual-file name
`` output.fileName || `output-${Date.now()}.${output.container}` ``. -/
def outputNameOf (options : CompressionOptions) (o : EngineOracle) : String :=
  let out := resolveOutput options
  match out.fileName with
  | some s =>
    if s != "" then s else "output-" ++ toString o.nowOut ++ "." ++ out.container
  | none => "output-" ++ toString o.nowOut ++ "." ++ out.container

/-- `#cleanupFiles(paths)`: for each path, if `FS('stat', path)` succeeds
(the entry exists) unlink it; every error — stat on a missing entry or a
failing unlink — is caught and ignored. -/
def cleanupFiles (o : EngineOracle) (files : List String)
    (paths : List String) : List String :=
  paths.foldl
    (fun fs path =>
      if fs.contains path then
        if o.unlinkFails path then fs else fs.erase path
      else fs)
    files

/-- The `try` block of `compress`: `exec`, then `readFile`, then wrapping
the bytes as a `Blob`.  A successful `exec` materialises the output entry
in the virtual filesystem (engine behaviour, abstracted: a failing `exec`
produces no output entry). -/
def execPhase (st : InstanceState) (o : EngineOracle)
    (outputName mime : String) : InstanceState × Except String BlobValue :=
  match o.execResult with
  | .error e => (st, .error e)
  | .ok _ =>
    let st := { st with files := st.files ++ [outputName] }
    match o.readResult with
    | .error e => (st, .error e)
    | .ok data => (st, .ok { data := data, type := mime })

/-- The `finally` block of `compress`: clear the busy flag, clear the
active per-job hooks, best-effort delete both virtual-file entries. -/
def finallyPhase (st : InstanceState) (o : EngineOracle)
    (inputName outputName : String) : InstanceState :=
  { st with isRunningJob := false, hooksOnLog := false,
            hooksOnProgress := false,
            files := cleanupFiles o st.files [inputName, outputName] }

/-- One `compress(file, options)` call run to settlement with no
interleaving: validation prefix; `await this.init()`; setting the active
per-job hooks (per-job, else instance default, else none); resolving
names; `#buildArgs` (which may throw); fetching and writing the input
(either may reject — both happen before the `try`); then the busy-flagged
`try`/`finally`. -/
def compressRun (cfg : VideoCompressorConfig) (st : InstanceState)
    (file : FileObj) (options : CompressionOptions) (o : EngineOracle) :
    InstanceState × Except String BlobValue :=
  match compressChecks st file options with
  | some e => (st, .error e)
  | none =>
    match initResult st o with
    | .error e => (initStateAfter st, .error e)
    | .ok _ =>
      let st1 := initStateAfter st
      let st2 := { st1 with
        hooksOnLog := options.hasOnLog || cfg.hasOnLog,
        hooksOnProgress := options.hasOnProgress || cfg.hasOnProgress }
      let out := resolveOutput options
      let inputName := inputNameOf file o
      let outputName := outputNameOf options o
      match buildArgs inputName outputName options with
      | .error e => (st2, .error e)
      | .ok _args =>
        match o.fetchResult with
        | .error e => (st2, .error e)
        | .ok _bytes =>
          match o.writeResult with
          | .error e => (st2, .error e)
          | .ok _ =>
            let st3 := { st2 with files := st2.files ++ [inputName],
                                  isRunningJob := true }
            let run := execPhase st3 o outputName out.mimeType
            (finallyPhase run.1 o inputName outputName, run.2)

/-- One public operation on the wrapper, with the oracle governing its
external interactions. -/
inductive WrapperOp where
  | initCall (o : EngineOracle)
  | compressCall (file : FileObj) (options : CompressionOptions) (o : EngineOracle)

/-- The state reached after one operation. -/
def runOp (cfg : VideoCompressorConfig) (st : InstanceState) :
    WrapperOp → InstanceState
  | .initCall o => (initRun st o).1
  | .compressCall file options o => (compressRun cfg st file options o).1

/-- The state reached after a sequence of operations. -/
def runOps (cfg : VideoCompressorConfig) (st : InstanceState) :
    List WrapperOp → InstanceState
  | [] => st
  | op :: rest => runOps cfg (runOp cfg st op) rest

/-- The outcome the specification promises for a `compress` call: the blob
on success, otherwise exactly the first error among input validation, the
engine load awaited by initialization, option validation
(argument-building), the fetch step, the input write, `exec` and
`readFile` — unchanged, with cleanup never contributing an error.
Written from the spec's error-propagation words, for comparison with
`compressRun`. -/
def compressSpecOutcome (st : InstanceState) (file : FileObj)
    (options : CompressionOptions) (o : EngineOracle) :
    Except String BlobValue :=
  match compressChecks st file options with
  | some e => .error e
  | none =>
    match initResult st o with
    | .error e => .error e
    | .ok _ =>
      match buildArgs (inputNameOf file o) (outputNameOf options o) options with
      | .error e => .error e
      | .ok _ =>
        match o.fetchResult with
        | .error e => .error e
        | .ok _ =>
          match o.writeResult with
          | .error e => .error e
          | .ok _ =>
            match o.execResult with
            | .error e => .error e
            | .ok _ =>
              match o.readResult with
              | .error e => .error e
              | .ok data =>
                .ok { data := data, type := (resolveOutput options).mimeType }

/-! ## Concrete fixtures used by witnesses and counterexamples -/

/-- An oracle where every external step succeeds. -/
def oracleOK : EngineOracle :=
  { loadResult := .ok (), fetchResult := .ok [0], writeResult := .ok (),
    execResult := .ok (), readResult := .ok [1, 2, 3],
    unlinkFails := fun _ => false, nowIn := 1000, nowOut := 1000 }

/-- A valid input file, as in the repository's unit tests. -/
def sampleFile : FileObj :=
  { isFile := true, name := "sample.mp4", mimeType := "video/mp4" }

/-- A configuration with no instance-level default callbacks. -/
def cfg0 : VideoCompressorConfig := { hasOnLog := false, hasOnProgress := false }

/-- Plain `mode: 'copy'` options. -/
def copyOpts : CompressionOptions :=
  { mode := some CompressionMode.COPY, video := none, audio := none,
    output := none, hasOnLog := false, hasOnProgress := false }

/-- Re-encode options supplying both `crf` and `bitrate`, together with a
per-job log callback. -/
def conflictOpts : CompressionOptions :=
  { mode := some CompressionMode.REENCODE,
    video := some { codec := none, crf := some 20, bitrate := some "1M",
                    preset := none, scale := none },
    audio := none, output := none, hasOnLog := true, hasOnProgress := false }

/-! ## Helper lemmas -/

theorem initStateAfter_isRunningJob (st : InstanceState) :
    (initStateAfter st).isRunningJob = st.isRunningJob := by
  unfold initStateAfter
  split
  · rfl
  · split <;> rfl

theorem initStateAfter_hooksOnLog (st : InstanceState) :
    (initStateAfter st).hooksOnLog = st.hooksOnLog := by
  unfold initStateAfter
  split
  · rfl
  · split <;> rfl

theorem initStateAfter_files (st : InstanceState) :
    (initStateAfter st).files = st.files := by
  unfold initStateAfter
  split
  · rfl
  · split <;> rfl

theorem initStateAfter_hooksOnProgress (st : InstanceState) :
    (initStateAfter st).hooksOnProgress = st.hooksOnProgress := by
  unfold initStateAfter
  split
  · rfl
  · split <;> rfl

theorem initRun_created {st : InstanceState} (o : EngineOracle)
    (h : st.ffmpegCreated = true) : initRun st o = (st, Except.ok ()) := by
  simp [initRun, initStateAfter, initResult, h]

theorem except_isOk_exists {ε α : Type} {x : Except ε α} (h : x.isOk = true) :
    ∃ a, x = .ok a := by
  cases x with
  | error e => simp [Except.isOk, Except.toBool] at h
  | ok a => exact ⟨a, rfl⟩

theorem buildArgs_reencode (inputName outputName : String)
    (options : CompressionOptions) (vArgs : List String)
    (hm : options.mode = some CompressionMode.REENCODE)
    (hv : applyVideoOptions (options.video.getD emptyVideoOptions) = .ok vArgs) :
    buildArgs inputName outputName options
      = .ok (["-i", inputName] ++ vArgs
          ++ applyAudioOptions (options.audio.getD emptyAudioOptions)
          ++ ["-movflags", "+faststart", "-y", outputName]) := by
  simp [buildArgs, hm, hv, CompressionMode.REENCODE, CompressionMode.COPY,
    CompressionMode.COPY_MUTE, Except.map]

theorem buildArgs_reencode_error (inputName outputName : String)
    (options : CompressionOptions) (e : String)
    (hm : options.mode = some CompressionMode.REENCODE)
    (hv : applyVideoOptions (options.video.getD emptyVideoOptions) = .error e) :
    buildArgs inputName outputName options = .error e := by
  simp [buildArgs, hm, hv, CompressionMode.REENCODE, CompressionMode.COPY,
    CompressionMode.COPY_MUTE, Except.map]

theorem compressRun_success (cfg : VideoCompressorConfig) (st : InstanceState)
    (file : FileObj) (options : CompressionOptions) (o : EngineOracle)
    (args : List String) (bs d : List Nat)
    (hchecks : compressChecks st file options = none)
    (hinit : initResult st o = .ok ())
    (hargs : buildArgs (inputNameOf file o) (outputNameOf options o) options
      = .ok args)
    (hfetch : o.fetchResult = .ok bs) (hwrite : o.writeResult = .ok ())
    (hexec : o.execResult = .ok ()) (hread : o.readResult = .ok d) :
    (compressRun cfg st file options o).2
      = .ok { data := d, type := (resolveOutput options).mimeType } := by
  unfold compressRun execPhase
  simp [hchecks, hinit, hargs, hfetch, hwrite, hexec, hread]

theorem compressRun_snd_eq_spec (cfg : VideoCompressorConfig)
    (st : InstanceState) (file : FileObj) (options : CompressionOptions)
    (o : EngineOracle) :
    (compressRun cfg st file options o).2
      = compressSpecOutcome st file options o := by
  unfold compressRun compressSpecOutcome execPhase
  cases hc : compressChecks st file options with
  | some e => simp
  | none =>
    cases hi : initResult st o with
    | error e => simp
    | ok u =>
      cases hb : buildArgs (inputNameOf file o) (outputNameOf options o) options with
      | error e => simp [hb]
      | ok args =>
        cases hf : o.fetchResult with
        | error e => simp [hb, hf]
        | ok bs =>
          cases hw : o.writeResult with
          | error e => simp [hb, hf, hw]
          | ok w =>
            cases he : o.execResult with
            | error e => simp [hb, hf, hw, he]
            | ok v =>
              cases hr : o.readResult with
              | error e => simp [hb, hf, hw, he, hr]
              | ok d => simp [hb, hf, hw, he, hr]

theorem compressRun_isRunningJob (cfg : VideoCompressorConfig)
    (st : InstanceState) (file : FileObj) (options : CompressionOptions)
    (o : EngineOracle) (hb : st.isRunningJob = false) :
    (compressRun cfg st file options o).1.isRunningJob = false := by
  unfold compressRun
  cases hc : compressChecks st file options with
  | some e => simpa using hb
  | none =>
    cases hi : initResult st o with
    | error e => simpa [initStateAfter_isRunningJob] using hb
    | ok u =>
      cases hbld : buildArgs (inputNameOf file o) (outputNameOf options o) options with
      | error e => simpa [hbld, initStateAfter_isRunningJob] using hb
      | ok args =>
        cases hf : o.fetchResult with
        | error e => simpa [hbld, hf, initStateAfter_isRunningJob] using hb
        | ok bs =>
          cases hw : o.writeResult with
          | error e => simpa [hbld, hf, hw, initStateAfter_isRunningJob] using hb
          | ok w => simp [hbld, hf, hw, finallyPhase]

theorem cleanup_removes_both (o : EngineOracle) (base : List String)
    (i j : String) (hi : i ∉ base) (hj : j ∉ base)
    (hu1 : o.unlinkFails i = false) (hu2 : o.unlinkFails j = false) :
    cleanupFiles o (base ++ [i, j]) [i, j] = base
    ∧ cleanupFiles o (base ++ [i]) [i, j] = base := by
  have hcontains1 : (base ++ [i, j]).contains i = true := by simp
  have hcontains2 : (base ++ [i]).contains i = true := by simp
  have herase1 : (base ++ [i, j]).erase i = base ++ [j] := by
    rw [List.erase_append_right _ hi, List.erase_cons_head]
  have herase2 : (base ++ [i]).erase i = base := by
    rw [List.erase_append_right _ hi, List.erase_cons_head, List.append_nil]
  constructor
  · show cleanupFiles o (base ++ [i, j]) [i, j] = base
    unfold cleanupFiles
    simp only [List.foldl, hcontains1, hu1, if_true, if_false, herase1]
    have hcontains3 : (base ++ [j]).contains j = true := by simp
    have herase3 : (base ++ [j]).erase j = base := by
      rw [List.erase_append_right _ hj, List.erase_cons_head, List.append_nil]
    simp [hcontains3, hu2, herase3]
  · show cleanupFiles o (base ++ [i]) [i, j] = base
    unfold cleanupFiles
    simp only [List.foldl, hcontains2, hu1, if_true, if_false, herase2]
    have hcontains4 : base.contains j = false := by simpa using hj
    simp [hcontains4]
    intro hmem _
    exact absurd hmem hj

theorem compressRun_try_state (cfg : VideoCompressorConfig)
    (st : InstanceState) (file : FileObj) (options : CompressionOptions)
    (o : EngineOracle) (args : List String) (bs : List Nat)
    (hchecks : compressChecks st file options = none)
    (hinit : initResult st o = .ok ())
    (hargs : buildArgs (inputNameOf file o) (outputNameOf options o) options
      = .ok args)
    (hfetch : o.fetchResult = .ok bs) (hwrite : o.writeResult = .ok ())
    (hifresh : inputNameOf file o ∉ st.files)
    (hofresh : outputNameOf options o ∉ st.files)
    (hu1 : o.unlinkFails (inputNameOf file o) = false)
    (hu2 : o.unlinkFails (outputNameOf options o) = false) :
    (compressRun cfg st file options o).1.isRunningJob = false
    ∧ (compressRun cfg st file options o).1.hooksOnLog = false
    ∧ (compressRun cfg st file options o).1.hooksOnProgress = false
    ∧ (compressRun cfg st file options o).1.files = st.files := by
  have hclean := cleanup_removes_both o st.files
    (inputNameOf file o) (outputNameOf options o) hifresh hofresh hu1 hu2
  unfold compressRun execPhase
  cases he : o.execResult with
  | error e =>
    simp [hchecks, hinit, hargs, hfetch, hwrite, he, finallyPhase,
      initStateAfter_files]
    exact hclean.2
  | ok v =>
    cases hr : o.readResult with
    | error e =>
      simp [hchecks, hinit, hargs, hfetch, hwrite, he, hr, finallyPhase,
        initStateAfter_files]
      exact hclean.1
    | ok d =>
      simp [hchecks, hinit, hargs, hfetch, hwrite, he, hr, finallyPhase,
        initStateAfter_files]
      exact hclean.1

/-- The fields of the instance state that record engine creation and
loading. -/
def engineFields (st : InstanceState) : Bool × Bool × Nat × Nat :=
  (st.ffmpegCreated, st.loadStarted, st.factoryCalls, st.loadCalls)

theorem compressRun_engineFields (cfg : VideoCompressorConfig)
    (st : InstanceState) (file : FileObj) (options : CompressionOptions)
    (o : EngineOracle) :
    engineFields (compressRun cfg st file options o).1 = engineFields st
    ∨ engineFields (compressRun cfg st file options o).1
        = engineFields (initStateAfter st) := by
  unfold compressRun
  cases hc : compressChecks st file options with
  | some e => exact Or.inl rfl
  | none =>
    cases hi : initResult st o with
    | error e => exact Or.inr rfl
    | ok u =>
      right
      cases hbld : buildArgs (inputNameOf file o) (outputNameOf options o) options with
      | error e => simp [hbld, engineFields]
      | ok args =>
        cases hf : o.fetchResult with
        | error e => simp [hbld, hf, engineFields]
        | ok bs =>
          cases hw : o.writeResult with
          | error e => simp [hbld, hf, hw, engineFields]
          | ok w =>
            cases he : o.execResult with
            | error e => simp [hbld, hf, hw, he, execPhase, finallyPhase, engineFields]
            | ok v =>
              cases hr : o.readResult with
              | error e =>
                simp [hbld, hf, hw, he, hr, execPhase, finallyPhase, engineFields]
              | ok d =>
                simp [hbld, hf, hw, he, hr, execPhase, finallyPhase, engineFields]

/-- Inductive invariant: the factory and `load()` have been called at most
once, and not at all while the engine handle is still null. -/
def engineOnceInv (st : InstanceState) : Prop :=
  st.factoryCalls ≤ 1 ∧ st.loadCalls ≤ 1
  ∧ (st.ffmpegCreated = false →
      st.factoryCalls = 0 ∧ st.loadCalls = 0 ∧ st.loadStarted = false)

theorem engineOnceInv_initStateAfter (st : InstanceState)
    (h : engineOnceInv st) : engineOnceInv (initStateAfter st) := by
  obtain ⟨h1, h2, h3⟩ := h
  unfold initStateAfter engineOnceInv
  split
  · exact ⟨h1, h2, h3⟩
  · split
    · exact ⟨h1, h2, h3⟩
    · rename_i hcreated hstarted
      simp only [Bool.not_eq_true] at hcreated
      obtain ⟨hf0, hl0, _⟩ := h3 hcreated
      simp [hf0, hl0]

theorem engineOnceInv_of_engineFields_eq {st st' : InstanceState}
    (heq : engineFields st' = engineFields st) (h : engineOnceInv st) :
    engineOnceInv st' := by
  have h1 : st'.ffmpegCreated = st.ffmpegCreated := congrArg Prod.fst heq
  have h2 : st'.loadStarted = st.loadStarted := congrArg (fun p => p.2.1) heq
  have h3 : st'.factoryCalls = st.factoryCalls := congrArg (fun p => p.2.2.1) heq
  have h4 : st'.loadCalls = st.loadCalls := congrArg (fun p => p.2.2.2) heq
  unfold engineOnceInv
  rw [h1, h2, h3, h4]
  exact h

theorem engineOnceInv_runOp (cfg : VideoCompressorConfig)
    (st : InstanceState) (op : WrapperOp) (h : engineOnceInv st) :
    engineOnceInv (runOp cfg st op) := by
  cases op with
  | initCall o =>
    show engineOnceInv (initRun st o).1
    exact engineOnceInv_initStateAfter st h
  | compressCall file options o =>
    show engineOnceInv (compressRun cfg st file options o).1
    rcases compressRun_engineFields cfg st file options o with heq | heq
    · exact engineOnceInv_of_engineFields_eq heq h
    · exact engineOnceInv_of_engineFields_eq heq
        (engineOnceInv_initStateAfter st h)

theorem engineOnceInv_runOps (cfg : VideoCompressorConfig)
    (ops : List WrapperOp) :
    ∀ st : InstanceState, engineOnceInv st → engineOnceInv (runOps cfg st ops) := by
  induction ops with
  | nil => intro st h; exact h
  | cons op rest ih =>
    intro st h
    exact ih (runOp cfg st op) (engineOnceInv_runOp cfg st op h)

/-! ## Claims -/

/-- C1 (counterexample): a `compress` call that passes the initial file and
mode validation can settle with the active per-job callbacks still set.
With `mode: 'reencode'` and both `crf` and `bitrate` supplied, the
configuration error is thrown by argument building, after the active hooks
were installed but before the `try`/`finally` that clears them — so the
per-job `onLog` hook is still installed after the call settles, refuting
the claim that every such call clears the callbacks back to none on every
exit path. -/
theorem compress_hooks_not_cleared_counterexample :
    compressChecks freshState sampleFile conflictOpts = none
    ∧ (compressRun cfg0 freshState sampleFile conflictOpts oracleOK).2
        = .error "Provide either crf or bitrate for video, not both."
    ∧ (compressRun cfg0 freshState sampleFile conflictOpts oracleOK).1.hooksOnLog
        = true := ⟨rfl, rfl, rfl⟩

/-- C1 (amended): for every `compress` call starting with the busy flag
clear (i.e. also passing the busy check), the busy flag is false once the
call settles; and on every exit path that reaches engine execution (the
argument list was built and the fetch and input write succeeded), the
active per-job callbacks are cleared back to none and both virtual-file
entries are best-effort deleted — here under the hypotheses that the two
names are not pre-existing entries and their unlinks succeed, the
filesystem is restored exactly.  (On failure paths before the input write
the callbacks installed by the call remain set — see the counterexample.) -/
theorem compress_exit_state_cleanup
    (cfg : VideoCompressorConfig) (st : InstanceState) (file : FileObj)
    (options : CompressionOptions) (o : EngineOracle) (args : List String)
    (bs : List Nat) (hbusy : st.isRunningJob = false) :
    (compressRun cfg st file options o).1.isRunningJob = false
    ∧ (compressChecks st file options = none →
       initResult st o = .ok () →
       buildArgs (inputNameOf file o) (outputNameOf options o) options
         = .ok args →
       o.fetchResult = .ok bs →
       o.writeResult = .ok () →
       inputNameOf file o ∉ st.files →
       outputNameOf options o ∉ st.files →
       o.unlinkFails (inputNameOf file o) = false →
       o.unlinkFails (outputNameOf options o) = false →
       (compressRun cfg st file options o).1.hooksOnLog = false
       ∧ (compressRun cfg st file options o).1.hooksOnProgress = false
       ∧ (compressRun cfg st file options o).1.files = st.files) := by
  constructor
  · exact compressRun_isRunningJob cfg st file options o hbusy
  · intro hchecks hinit hargs hfetch hwrite hifresh hofresh hu1 hu2
    have h := compressRun_try_state cfg st file options o args bs
      hchecks hinit hargs hfetch hwrite hifresh hofresh hu1 hu2
    exact ⟨h.2.1, h.2.2.1, h.2.2.2⟩

/-- Witness for `compress_exit_state_cleanup`: a concrete successful
copy-mode run on a fresh instance leaves the busy flag clear, the hooks
cleared and the virtual filesystem as it started. -/
theorem compress_exit_state_cleanup_witness :
    (compressRun cfg0 freshState sampleFile copyOpts oracleOK).1.isRunningJob
      = false
    ∧ (compressRun cfg0 freshState sampleFile copyOpts oracleOK).1.hooksOnLog
      = false
    ∧ (compressRun cfg0 freshState sampleFile copyOpts oracleOK).1.hooksOnProgress
      = false
    ∧ (compressRun cfg0 freshState sampleFile copyOpts oracleOK).1.files
      = freshState.files := by
  have h := compress_exit_state_cleanup cfg0 freshState sampleFile copyOpts
    oracleOK
    ["-i", inputNameOf sampleFile oracleOK, "-c:v", "copy", "-c:a", "copy",
      "-movflags", "+faststart", "-y", outputNameOf copyOpts oracleOK]
    [0] rfl
  have h2 := h.2 rfl rfl rfl rfl rfl (by simp [freshState]) (by simp [freshState])
    rfl rfl
  exact ⟨h.1, h2.1, h2.2.1, h2.2.2⟩

/-- C2 (counterexample): the busy flag is set only after the input write
completes, so a second `compress` call issued while the first is still
unresolved — here, suspended on its very first `await` (the engine load
started by `init`) — passes every check of its synchronous validation
prefix, including the busy check, and runs a complete job to success
instead of rejecting with the busy error.  (The state of the instance
while call one is suspended awaiting the load is exactly
`initStateAfter freshState`, since all of `compress`'s mutations up to
that point happen in `init`'s synchronous prefix.) -/
theorem compress_busy_misses_early_window_counterexample :
    compressChecks freshState sampleFile copyOpts = none
    ∧ (initStateAfter freshState).isRunningJob = false
    ∧ compressChecks (initStateAfter freshState) sampleFile copyOpts = none
    ∧ (compressRun cfg0 (initStateAfter freshState) sampleFile copyOpts
        oracleOK).2 = .ok { data := [1, 2, 3], type := "video/mp4" } :=
  ⟨rfl, rfl, rfl, rfl⟩

/-- C2 (amended): a second `compress` call rejects immediately with the
busy error exactly when its synchronous validation prefix runs while the
instance's busy flag is set — which holds only during the first call's
engine-execution window (between the completion of the input write and
the `finally` cleanup).  Whenever the flag is set, any `compress` call
with a valid file and mode rejects with the busy error, changes no state
and runs no job. -/
theorem compress_busy_rejects_when_flag_set
    (cfg : VideoCompressorConfig) (st : InstanceState) (file : FileObj)
    (options : CompressionOptions) (o : EngineOracle)
    (hf : file.isFile = true) (hm : truthyStr options.mode = true)
    (hb : st.isRunningJob = true) :
    compressRun cfg st file options o
      = (st, .error "Another compression job is already running on this instance.") := by
  unfold compressRun compressChecks
  simp [hf, hm, hb]

/-- An instance mid-job: engine created and loaded, busy flag set. -/
def busyState : InstanceState :=
  { ffmpegCreated := true, loadStarted := true, isRunningJob := true,
    hooksOnLog := false, hooksOnProgress := false, files := [],
    factoryCalls := 1, loadCalls := 1 }

/-- Witness for `compress_busy_rejects_when_flag_set` on a concrete busy
instance. -/
theorem compress_busy_rejects_when_flag_set_witness :
    compressRun cfg0 busyState sampleFile copyOpts oracleOK
      = (busyState,
         .error "Another compression job is already running on this instance.") :=
  compress_busy_rejects_when_flag_set cfg0 busyState sampleFile copyOpts
    oracleOK rfl rfl rfl

/-- C3: for every `compress` call (passing validation, with the engine
initialization resolving) whose mode is `reencode` and whose video options
carry both `crf` and `bitrate`, the call rejects with exactly the
configuration error, and the engine's virtual filesystem is untouched —
no `writeFile` and no `exec` happened (the oracle's fetch, write, exec and
read outcomes are arbitrary here, so the result cannot depend on them). -/
theorem reencode_conflict_rejects_before_engine
    (cfg : VideoCompressorConfig) (st : InstanceState) (file : FileObj)
    (options : CompressionOptions) (o : EngineOracle) (v : VideoOptions)
    (hchecks : compressChecks st file options = none)
    (hinit : initResult st o = .ok ())
    (hmode : options.mode = some CompressionMode.REENCODE)
    (hv : options.video = some v)
    (hcrf : v.crf.isSome = true) (hbr : v.bitrate.isSome = true) :
    (compressRun cfg st file options o).2
      = .error "Provide either crf or bitrate for video, not both."
    ∧ (compressRun cfg st file options o).1.files = st.files := by
  have hav : applyVideoOptions (options.video.getD emptyVideoOptions)
      = .error "Provide either crf or bitrate for video, not both." := by
    rw [hv]
    simp [applyVideoOptions, hcrf, hbr]
  have hb := buildArgs_reencode_error (inputNameOf file o)
    (outputNameOf options o) options _ hmode hav
  unfold compressRun
  refine ⟨?_, ?_⟩ <;> simp [hchecks, hinit, hb, initStateAfter_files]

/-- Witness for `reencode_conflict_rejects_before_engine` on a fresh
instance with concrete conflicting options. -/
theorem reencode_conflict_rejects_before_engine_witness :
    (compressRun cfg0 freshState sampleFile conflictOpts oracleOK).2
      = .error "Provide either crf or bitrate for video, not both."
    ∧ (compressRun cfg0 freshState sampleFile conflictOpts oracleOK).1.files
      = freshState.files :=
  reencode_conflict_rejects_before_engine cfg0 freshState sampleFile
    conflictOpts oracleOK
    { codec := none, crf := some 20, bitrate := some "1M",
      preset := none, scale := none }
    rfl rfl rfl rfl rfl rfl

theorem buildArgs_copy (inputName outputName : String)
    (options : CompressionOptions)
    (hm : options.mode = some CompressionMode.COPY) :
    buildArgs inputName outputName options
      = .ok ["-i", inputName, "-c:v", "copy", "-c:a", "copy",
        "-movflags", "+faststart", "-y", outputName] := by
  simp [buildArgs, hm, CompressionMode.COPY, Except.map]

theorem buildArgs_copyMute (inputName outputName : String)
    (options : CompressionOptions)
    (hm : options.mode = some CompressionMode.COPY_MUTE) :
    buildArgs inputName outputName options
      = .ok ["-i", inputName, "-c:v", "copy", "-an",
        "-movflags", "+faststart", "-y", outputName] := by
  simp [buildArgs, hm, CompressionMode.COPY, CompressionMode.COPY_MUTE,
    Except.map]

theorem buildArgs_unsupported (inputName outputName : String)
    (options : CompressionOptions) (m : String)
    (hm : options.mode = some m)
    (h1 : m ≠ CompressionMode.COPY) (h2 : m ≠ CompressionMode.COPY_MUTE)
    (h3 : m ≠ CompressionMode.REENCODE) :
    buildArgs inputName outputName options
      = .error ("Unsupported compression mode: " ++ m) := by
  simp [buildArgs, hm, h1, h2, h3, Except.map]

/-- C4: whenever `#buildArgs` produces an argument list, it begins with the
input flag and input name as its first two elements and ends with the
overwrite flag (`-y`) and the output name as its final two elements; for
`mode: 'copy'` it is exactly the list with video-copy and audio-copy
directives and the fast-start flag, and for `mode: 'copy-mute'` exactly
the list with the audio-strip directive (`-an`) and the fast-start flag,
containing no `-c:a` audio-codec directive. -/
theorem buildArgs_shape (inputName outputName : String)
    (options : CompressionOptions) (args : List String)
    (h : buildArgs inputName outputName options = .ok args) :
    (∃ mid, args = "-i" :: inputName :: (mid ++ ["-y", outputName]))
    ∧ (options.mode = some CompressionMode.COPY →
        args = ["-i", inputName, "-c:v", "copy", "-c:a", "copy",
          "-movflags", "+faststart", "-y", outputName])
    ∧ (options.mode = some CompressionMode.COPY_MUTE →
        args = ["-i", inputName, "-c:v", "copy", "-an",
          "-movflags", "+faststart", "-y", outputName])
    ∧ (options.mode = some CompressionMode.COPY_MUTE →
        inputName ≠ "-c:a" → outputName ≠ "-c:a" → "-c:a" ∉ args) := by
  cases hm : options.mode with
  | none =>
    unfold buildArgs at h
    rw [hm] at h
    simp [Except.map] at h
  | some m =>
    by_cases hc : m = CompressionMode.COPY
    · subst hc
      rw [buildArgs_copy inputName outputName options hm] at h
      have hargs : args = ["-i", inputName, "-c:v", "copy", "-c:a", "copy",
          "-movflags", "+faststart", "-y", outputName] := by
        simpa using h.symm
      subst hargs
      refine ⟨⟨["-c:v", "copy", "-c:a", "copy", "-movflags", "+faststart"],
        by simp⟩, fun _ => rfl, ?_, ?_⟩
      · intro hmute
        simp [CompressionMode.COPY, CompressionMode.COPY_MUTE] at hmute
      · intro hmute
        simp [CompressionMode.COPY, CompressionMode.COPY_MUTE] at hmute
    · by_cases hcm : m = CompressionMode.COPY_MUTE
      · subst hcm
        rw [buildArgs_copyMute inputName outputName options hm] at h
        have hargs : args = ["-i", inputName, "-c:v", "copy", "-an",
            "-movflags", "+faststart", "-y", outputName] := by
          simpa using h.symm
        subst hargs
        refine ⟨⟨["-c:v", "copy", "-an", "-movflags", "+faststart"],
          by simp⟩, ?_, fun _ => rfl, ?_⟩
        · intro hcopy
          simp [CompressionMode.COPY, CompressionMode.COPY_MUTE] at hcopy
        · intro _ hin hout
          simp only [List.mem_cons, List.not_mem_nil, or_false]
          push_neg
          exact ⟨by decide, Ne.symm hin, by decide, by decide, by decide,
            by decide, by decide, by decide, Ne.symm hout⟩
      · by_cases hre : m = CompressionMode.REENCODE
        · subst hre
          cases hv : applyVideoOptions (options.video.getD emptyVideoOptions) with
          | error e =>
            rw [buildArgs_reencode_error inputName outputName options e hm hv]
              at h
            exact absurd h (by simp)
          | ok vArgs =>
            rw [buildArgs_reencode inputName outputName options vArgs hm hv]
              at h
            have hargs : args = ["-i", inputName] ++ vArgs
                ++ applyAudioOptions (options.audio.getD emptyAudioOptions)
                ++ ["-movflags", "+faststart", "-y", outputName] := by
              simpa using h.symm
            subst hargs
            refine ⟨⟨vArgs
              ++ applyAudioOptions (options.audio.getD emptyAudioOptions)
              ++ ["-movflags", "+faststart"], by simp⟩, ?_, ?_, ?_⟩
            · intro hcopy
              simp [CompressionMode.COPY, CompressionMode.REENCODE] at hcopy
            · intro hmute
              simp [CompressionMode.COPY_MUTE, CompressionMode.REENCODE]
                at hmute
            · intro hmute
              simp [CompressionMode.COPY_MUTE, CompressionMode.REENCODE]
                at hmute
        · rw [buildArgs_unsupported inputName outputName options m hm hc hcm
            hre] at h
          exact absurd h (by simp)

/-- Copy-and-mute options used by the C4 witness. -/
def copyMuteOpts : CompressionOptions :=
  { mode := some CompressionMode.COPY_MUTE, video := none, audio := none,
    output := none, hasOnLog := false, hasOnProgress := false }

/-- Witness for `buildArgs_shape` on a concrete copy-mute build. -/
theorem buildArgs_shape_witness :
    (∃ mid, ["-i", "in.mp4", "-c:v", "copy", "-an", "-movflags",
        "+faststart", "-y", "out.mp4"]
      = "-i" :: "in.mp4" :: (mid ++ ["-y", "out.mp4"]))
    ∧ ["-i", "in.mp4", "-c:v", "copy", "-an", "-movflags", "+faststart",
        "-y", "out.mp4"]
      = ["-i", "in.mp4", "-c:v", "copy", "-an", "-movflags", "+faststart",
        "-y", "out.mp4"]
    ∧ "-c:a" ∉ ["-i", "in.mp4", "-c:v", "copy", "-an", "-movflags",
        "+faststart", "-y", "out.mp4"] := by
  have h := buildArgs_shape "in.mp4" "out.mp4" copyMuteOpts
    ["-i", "in.mp4", "-c:v", "copy", "-an", "-movflags", "+faststart",
      "-y", "out.mp4"] rfl
  exact ⟨h.1, h.2.2.1 rfl, h.2.2.2 rfl (by decide) (by decide)⟩

/-- C5: the audio argument precedence of `#applyAudioOptions` for
re-encode mode: muted strips audio and emits nothing else; otherwise an
explicit (truthy) codec is selected; otherwise a requested (truthy)
bitrate selects the default `aac` codec; otherwise audio is passed through
with `copy`; and whenever a bitrate is given (and audio is not muted) a
`-b:a` argument is appended.  The final conjunct ties this to the
argument list `#buildArgs` produces for a re-encode `compress` call. -/
theorem applyAudioOptions_precedence (a : AudioOptions) :
    (a.mute = true → applyAudioOptions a = ["-an"])
    ∧ (a.mute = false → ∀ c, a.codec = some c → c ≠ "" →
        applyAudioOptions a
          = ["-c:a", c]
            ++ (if truthyStr a.bitrate then ["-b:a", a.bitrate.getD ""]
                else []))
    ∧ (a.mute = false → truthyStr a.codec = false → ∀ b,
        a.bitrate = some b → b ≠ "" →
        applyAudioOptions a = ["-c:a", "aac", "-b:a", b])
    ∧ (a.mute = false → truthyStr a.codec = false →
        truthyStr a.bitrate = false → applyAudioOptions a = ["-c:a", "copy"])
    ∧ (∀ options : CompressionOptions, ∀ vArgs : List String,
        options.mode = some CompressionMode.REENCODE →
        options.audio = some a →
        applyVideoOptions (options.video.getD emptyVideoOptions)
          = .ok vArgs →
        ∀ inputName outputName : String,
        buildArgs inputName outputName options
          = .ok (["-i", inputName] ++ vArgs ++ applyAudioOptions a
              ++ ["-movflags", "+faststart", "-y", outputName])) := by
  refine ⟨?_, ?_, ?_, ?_, ?_⟩
  · intro hm
    simp [applyAudioOptions, hm]
  · intro hm c hc hne
    simp [applyAudioOptions, hm, truthyStr, hc, hne]
  · intro hm hcodec b hb hbne
    have hbt : truthyStr a.bitrate = true := by simp [truthyStr, hb, hbne]
    unfold applyAudioOptions
    rw [hm, hcodec, hbt, hb]
    simp
  · intro hm hcodec hbit
    simp [applyAudioOptions, hm, hcodec, hbit]
  · intro options vArgs hmode haudio hv inputName outputName
    have : options.audio.getD emptyAudioOptions = a := by rw [haudio]; rfl
    rw [← this]
    exact buildArgs_reencode inputName outputName options vArgs hmode hv

/-- An audio option set with only a bitrate, as in the spec's worked
example. -/
def bitrateOnlyAudio : AudioOptions :=
  { mute := false, codec := none, bitrate := some "128k" }

/-- Witness for `applyAudioOptions_precedence`: a bitrate with no codec
selects the default `aac` codec and appends the bitrate. -/
theorem applyAudioOptions_precedence_witness :
    applyAudioOptions bitrateOnlyAudio = ["-c:a", "aac", "-b:a", "128k"] :=
  (applyAudioOptions_precedence bitrateOnlyAudio).2.2.1 rfl rfl "128k" rfl
    (by decide)

/-- C6: across any sequence of `init()` and `compress()` calls on one
instance starting fresh, the engine factory is invoked at most once and
its `load()` step is started at most once; and once the engine handle
exists (in particular while a first call's load is still outstanding,
since `init`'s state transform is exactly its synchronous prefix), any
further `init()` returns immediately with no state change and no second
load — concurrent initializers share the one stored load operation. -/
theorem engine_loaded_once (cfg : VideoCompressorConfig)
    (ops : List WrapperOp) (o : EngineOracle) :
    (runOps cfg freshState ops).factoryCalls ≤ 1
    ∧ (runOps cfg freshState ops).loadCalls ≤ 1
    ∧ ((runOps cfg freshState ops).ffmpegCreated = true →
        initRun (runOps cfg freshState ops) o
          = (runOps cfg freshState ops, Except.ok ())) := by
  have hfresh : engineOnceInv freshState := by
    refine ⟨by simp [freshState], by simp [freshState], fun _ => ?_⟩
    exact ⟨rfl, rfl, rfl⟩
  have hinv := engineOnceInv_runOps cfg ops freshState hfresh
  exact ⟨hinv.1, hinv.2.1, fun hcreated => initRun_created o hcreated⟩

/-- Witness for `engine_loaded_once`: two init calls (the second issued
while the first's load may still be pending) followed by a compress call
still create and load the engine exactly once, and a further `init()`
returns immediately. -/
theorem engine_loaded_once_witness :
    (runOps cfg0 freshState
        [WrapperOp.initCall oracleOK, WrapperOp.initCall oracleOK,
          WrapperOp.compressCall sampleFile copyOpts oracleOK]).factoryCalls
      ≤ 1
    ∧ initRun
        (runOps cfg0 freshState
          [WrapperOp.initCall oracleOK, WrapperOp.initCall oracleOK,
            WrapperOp.compressCall sampleFile copyOpts oracleOK]) oracleOK
      = (runOps cfg0 freshState
          [WrapperOp.initCall oracleOK, WrapperOp.initCall oracleOK,
            WrapperOp.compressCall sampleFile copyOpts oracleOK],
         Except.ok ()) := by
  have h := engine_loaded_once cfg0
    [WrapperOp.initCall oracleOK, WrapperOp.initCall oracleOK,
      WrapperOp.compressCall sampleFile copyOpts oracleOK] oracleOK
  exact ⟨h.1, h.2.2 rfl⟩

/-- C7: the settlement of every `compress` call is exactly the
specification's outcome — the blob on success, otherwise the first error
raised by validation, the awaited engine load, option validation
(argument building), the fetch step, the input write, `exec` or
`readFile`, unchanged; and the outcome never depends on which cleanup
unlinks fail, i.e. cleanup errors are suppressed and cannot mask or
replace the result. -/
theorem compress_outcome_propagation (cfg : VideoCompressorConfig)
    (st : InstanceState) (file : FileObj) (options : CompressionOptions)
    (o : EngineOracle) (u : String → Bool) :
    (compressRun cfg st file options o).2
      = compressSpecOutcome st file options o
    ∧ (compressRun cfg st file options { o with unlinkFails := u }).2
      = (compressRun cfg st file options o).2 := by
  constructor
  · exact compressRun_snd_eq_spec cfg st file options o
  · rw [compressRun_snd_eq_spec, compressRun_snd_eq_spec]
    rfl

/-- C8 (counterexample): a supplied scale option whose only present
dimension is `0` is falsy in the source's `scale.width || scale.height`
guard, so no scale filter is appended even though a dimension is present —
refuting the claim that any supplied scale with at least one present
dimension yields a `scale=<w>:<h>` filter argument. -/
theorem scale_zero_width_no_filter_counterexample :
    (some { width := some 0, height := none } : Option ScaleOptions).isSome
      = true
    ∧ applyVideoOptions
        { codec := none, crf := none, bitrate := none, preset := none,
          scale := some { width := some 0, height := none } }
      = .ok ["-c:v", "libx264"]
    ∧ "-vf" ∉ ["-c:v", "libx264"] := ⟨rfl, rfl, by decide⟩

/-- C8 (amended): for re-encode video options, if a scale option is
supplied with at least one truthy (present and nonzero) dimension, the
built video arguments are exactly those without the scale option followed
by the filter `scale=<w>:<h>`, where an omitted dimension is replaced by
`-2`; if the supplied scale has no truthy dimension, the arguments are
identical to those with no scale option at all (nothing is appended), and
with no scale option the filter contribution is empty. -/
theorem applyVideoOptions_scale_filter (v : VideoOptions) :
    (∀ s, v.scale = some s → truthyInt s.width = false →
      truthyInt s.height = false →
      applyVideoOptions v = applyVideoOptions { v with scale := none })
    ∧ (∀ s, v.scale = some s →
      (truthyInt s.width || truthyInt s.height) = true →
      applyVideoOptions v
        = Except.map
            (fun a => a ++ ["-vf", "scale=" ++ toString (s.width.getD (-2))
              ++ ":" ++ toString (s.height.getD (-2))])
            (applyVideoOptions { v with scale := none }))
    ∧ scaleFilterArgs none = ([] : List String) := by
  refine ⟨?_, ?_, rfl⟩
  · intro s hs hw hh
    unfold applyVideoOptions
    simp only [scaleFilterArgs, hs]
    rw [hw, hh]
    simp
  · intro s hs ht
    unfold applyVideoOptions
    simp only [scaleFilterArgs, hs, ht, Except.map]
    split
    · rfl
    · simp

/-- Re-encode video options scaling to width 1280, height omitted. -/
def scaledVideo : VideoOptions :=
  { codec := none, crf := none, bitrate := none, preset := none,
    scale := some { width := some 1280, height := none } }

/-- Witness for `applyVideoOptions_scale_filter`: width 1280 with omitted
height appends the filter with the height replaced by `-2`. -/
theorem applyVideoOptions_scale_filter_witness :
    applyVideoOptions scaledVideo
      = Except.map
          (fun a => a ++ ["-vf", "scale=" ++ toString ((1280 : Int)) ++ ":"
            ++ toString ((-2 : Int))])
          (applyVideoOptions { scaledVideo with scale := none }) :=
  (applyVideoOptions_scale_filter scaledVideo).2.1
    { width := some 1280, height := none } rfl rfl

/-- C9: for `mode: 'copy'` or `'copy-mute'`, the supplied video and audio
options are ignored entirely when building the argument list — any two
option records with the same such mode build the same list, which always
builds successfully (so a copy-mode call supplying both `crf` and
`bitrate` raises no configuration-conflict error), and such a call
proceeds to execution and succeeds whenever the engine steps succeed. -/
theorem copy_modes_ignore_av_options (inputName outputName : String)
    (options options2 : CompressionOptions)
    (hm : options.mode = some CompressionMode.COPY
        ∨ options.mode = some CompressionMode.COPY_MUTE)
    (hsame : options2.mode = options.mode) :
    buildArgs inputName outputName options
      = buildArgs inputName outputName options2
    ∧ (buildArgs inputName outputName options).isOk = true
    ∧ (∀ (cfg : VideoCompressorConfig) (st : InstanceState) (file : FileObj)
        (o : EngineOracle) (bs d : List Nat),
        compressChecks st file options = none →
        initResult st o = .ok () →
        o.fetchResult = .ok bs → o.writeResult = .ok () →
        o.execResult = .ok () → o.readResult = .ok d →
        (compressRun cfg st file options o).2
          = .ok { data := d, type := (resolveOutput options).mimeType }) := by
  rcases hm with hc | hc
  · have h1 := buildArgs_copy inputName outputName options hc
    have h2 := buildArgs_copy inputName outputName options2 (hsame.trans hc)
    refine ⟨h1.trans h2.symm, by rw [h1]; rfl, ?_⟩
    intro cfg st file o bs d hchecks hinit hf hw he hr
    exact compressRun_success cfg st file options o _ bs d hchecks hinit
      (buildArgs_copy _ _ options hc) hf hw he hr
  · have h1 := buildArgs_copyMute inputName outputName options hc
    have h2 := buildArgs_copyMute inputName outputName options2
      (hsame.trans hc)
    refine ⟨h1.trans h2.symm, by rw [h1]; rfl, ?_⟩
    intro cfg st file o bs d hchecks hinit hf hw he hr
    exact compressRun_success cfg st file options o _ bs d hchecks hinit
      (buildArgs_copyMute _ _ options hc) hf hw he hr

/-- Copy-mode options that also (uselessly) supply conflicting `crf` and
`bitrate` video options. -/
def conflictVideoCopyOpts : CompressionOptions :=
  { mode := some CompressionMode.COPY,
    video := some { codec := none, crf := some 20, bitrate := some "1M",
                    preset := none, scale := none },
    audio := none, output := none, hasOnLog := false, hasOnProgress := false }

/-- Witness for `copy_modes_ignore_av_options`: a copy-mode call with
conflicting video options builds the same arguments as one with no video
options at all and runs to success rather than raising the conflict
error. -/
theorem copy_modes_ignore_av_options_witness :
    buildArgs "in.mp4" "out.mp4" conflictVideoCopyOpts
      = buildArgs "in.mp4" "out.mp4" copyOpts
    ∧ (compressRun cfg0 freshState sampleFile conflictVideoCopyOpts
        oracleOK).2
      = .ok { data := [1, 2, 3], type := "video/mp4" } := by
  have h := copy_modes_ignore_av_options "in.mp4" "out.mp4"
    conflictVideoCopyOpts copyOpts (Or.inl rfl) rfl
  exact ⟨h.1, h.2.2 cfg0 freshState sampleFile oracleOK [0] [1, 2, 3]
    rfl rfl rfl rfl rfl rfl⟩

/-- C10: if the engine's asynchronous load fails, the `init()` awaiting it
rejects with exactly that error, but the engine handle created before the
await is retained; every subsequent `init()` then resolves immediately
without retrying the load (its state and the load counters are unchanged),
and a subsequent `compress` call proceeds past initialization against the
never-loaded engine — here all the way to a successful run even though the
oracle's load outcome is still a failure. -/
theorem failed_load_retained_engine (cfg : VideoCompressorConfig)
    (st : InstanceState) (o o2 : EngineOracle) (file : FileObj)
    (options : CompressionOptions) (e : String) (args : List String)
    (bs d : List Nat)
    (hcreated : st.ffmpegCreated = false) (hstarted : st.loadStarted = false)
    (hload : o.loadResult = .error e) :
    (initRun st o).2 = .error e
    ∧ ((initRun st o).1).ffmpegCreated = true
    ∧ initRun (initRun st o).1 o2 = ((initRun st o).1, .ok ())
    ∧ (compressChecks (initRun st o).1 file options = none →
       buildArgs (inputNameOf file o2) (outputNameOf options o2) options
         = .ok args →
       o2.fetchResult = .ok bs → o2.writeResult = .ok () →
       o2.execResult = .ok () → o2.readResult = .ok d →
       (compressRun cfg (initRun st o).1 file options o2).2
         = .ok { data := d, type := (resolveOutput options).mimeType }) := by
  have h1 : (initRun st o).2 = .error e := by
    simp [initRun, initResult, hcreated, hload]
  have h2 : ((initRun st o).1).ffmpegCreated = true := by
    simp [initRun, initStateAfter, hcreated, hstarted]
  refine ⟨h1, h2, initRun_created o2 h2, ?_⟩
  intro hchecks hargs hf hw he hr
  exact compressRun_success cfg (initRun st o).1 file options o2 args bs d
    hchecks (by simp [initResult, h2]) hargs hf hw he hr

/-- An oracle whose engine load always fails but whose other steps
succeed. -/
def failingLoadOracle : EngineOracle :=
  { loadResult := .error "load failed", fetchResult := .ok [0],
    writeResult := .ok (), execResult := .ok (), readResult := .ok [9],
    unlinkFails := fun _ => false, nowIn := 5, nowOut := 5 }

/-- Witness for `failed_load_retained_engine` on a fresh instance with a
concrete failing load. -/
theorem failed_load_retained_engine_witness :
    (initRun freshState failingLoadOracle).2 = .error "load failed"
    ∧ initRun (initRun freshState failingLoadOracle).1 failingLoadOracle
      = ((initRun freshState failingLoadOracle).1, .ok ())
    ∧ (compressRun cfg0 (initRun freshState failingLoadOracle).1 sampleFile
        copyOpts failingLoadOracle).2
      = .ok { data := [9], type := "video/mp4" } := by
  have h := failed_load_retained_engine cfg0 freshState failingLoadOracle
    failingLoadOracle sampleFile copyOpts "load failed"
    ["-i", inputNameOf sampleFile failingLoadOracle, "-c:v", "copy",
      "-c:a", "copy", "-movflags", "+faststart", "-y",
      outputNameOf copyOpts failingLoadOracle]
    [0] [9] rfl rfl rfl
  exact ⟨h.1, h.2.2.1, h.2.2.2 rfl rfl rfl rfl rfl rfl⟩

/-- Witness for `compress_outcome_propagation`: a concrete successful run
settles with the specification outcome, also under an oracle whose every
unlink fails. -/
theorem compress_outcome_propagation_witness :
    (compressRun cfg0 freshState sampleFile copyOpts oracleOK).2
      = compressSpecOutcome freshState sampleFile copyOpts oracleOK
    ∧ (compressRun cfg0 freshState sampleFile copyOpts
        { oracleOK with unlinkFails := fun _ => true }).2
      = (compressRun cfg0 freshState sampleFile copyOpts oracleOK).2 :=
  compress_outcome_propagation cfg0 freshState sampleFile copyOpts oracleOK
    (fun _ => true)
